import Mathlib

/-!
Shallow embedding of `src/api/desktop/Project.js` (mir-one/Spoke): the
project-directory watcher. The `Project` class builds an in-memory file
hierarchy, polls for changes with `setTimeout`, deep-compares snapshots with
`fast-deep-equal`, and manages per-file watch registrations on top of the
`hierarchychanged` event of its `EventEmitter` base (eventemitter3).

Modelling conventions:
- Timestamps (`lastModificationDate`, `winLastWriteDate`, `Date.getTime()`)
  are `Int`; a JS `undefined` timestamp is `Option.none`.
- Callback identities (JS `===` on function objects) are the inductive
  `Handler`; the class field `_onWatchedFileChanged` is the distinguished
  `Handler.onWatchedFileChanged`.
- JS `Map` is an insertion-ordered association list: `Map.set` on an existing
  key updates in place, on a new key appends; iteration follows that order.
- `setTimeout` is modelled by a fresh timer id (`nextTimeoutId`); the stored
  `_checkHierarchyTimeout` is `Option Nat` (`none` = the JS `null`).
- Filesystem state is an `FSNode` tree passed explicitly; `OS.File.stat` is a
  function `String → Option Int` (`none` = rejection with an access error).
-/

/-- Identity of a JS function object used as a listener/callback.
`onWatchedFileChanged` is the class field `_onWatchedFileChanged`. -/
inductive Handler where
  | onWatchedFileChanged
  | user (id : Nat)
deriving DecidableEq, Repr

/-- A node of the built file hierarchy, as returned by `buildProjectNode`.
`file` carries `name`, `ext`, `uri`, `isDirectory: false`, `lastModified`;
`dir` carries `name`, `uri`, `children`, `files`, `isDirectory: true`,
`lastModified`. `lastModified` is `Option Int` because the code can store
a JS `undefined` there (see `childLastModifiedJS`). -/
inductive Node where
  | file (name : String) (ext : Option String) (uri : String) (lastModified : Option Int)
  | dir (name : String) (uri : String) (children : List Node) (files : List Node)
        (lastModified : Option Int)

mutual
/-- Structural (value) equality of two hierarchy nodes: what `fast-deep-equal`
computes on the plain objects produced by `buildProjectNode` (it compares all
own enumerable fields recursively, and `Date`s by their time value). -/
def Node.beq : Node → Node → Bool
  | .file n e u l, .file n' e' u' l' => n == n' && e == e' && u == u' && l == l'
  | .dir n u c f l, .dir n' u' c' f' l' =>
      n == n' && u == u' && Node.beqList c c' && Node.beqList f f' && l == l'
  | _, _ => false

def Node.beqList : List Node → List Node → Bool
  | [], [] => true
  | a :: as, b :: bs => Node.beq a b && Node.beqList as bs
  | _, _ => false
end

/-- The actual filesystem contents under one path: each entry has the stat
modification time `mtime` and, optionally, a `winLastWriteDate` provided by
the directory listing of its parent (the `OS.File.DirectoryIterator` entries
carry it on Windows only). -/
inductive FSNode where
  | file (name : String) (mtime : Int) (winDate : Option Int)
  | dir (name : String) (mtime : Int) (winDate : Option Int) (entries : List FSNode)

def FSNode.name : FSNode → String
  | .file n _ _ => n
  | .dir n _ _ _ => n

def FSNode.mtime : FSNode → Int
  | .file _ m _ => m
  | .dir _ m _ _ => m

def FSNode.winDate : FSNode → Option Int
  | .file _ _ w => w
  | .dir _ _ w _ => w

def FSNode.isDir : FSNode → Bool
  | .file _ _ _ => false
  | .dir _ _ _ _ => true

/-- Modelled from the spec: `pathToUri` / `OS.Path.toFileURI` is an external
collaborator ("bijective, no failure modes modeled"). -/
def pathToUri (path : String) : String := "file://" ++ path

/-- Modelled from the spec: `pathFromUri` / `OS.Path.fromFileURI`, the inverse
conversion. -/
def pathFromUri (uri : String) : String := uri.drop 7

/-- Modelled from the spec: `getFileExtension` lives in `./utils`, which is not
among the provided sources; the spec only gives a file node an optional
`extension`. Modelled as the part after the final dot, absent when the name
contains no dot. Its exact behaviour is irrelevant to the claims below: they
only compare the stored `ext` field against the whitelist. -/
def extAfterDot : List Char → Option (List Char) → Option (List Char)
  | [], acc => acc
  | c :: cs, acc =>
      if c = '.' then extAfterDot cs (some [])
      else
        match acc with
        | none => extAfterDot cs none
        | some buf => extAfterDot cs (some (buf ++ [c]))

/-- See `extAfterDot`: the characters after the final dot of the name, absent
when the name has no dot. -/
def getFileExtension (name : String) : Option String :=
  (extAfterDot name.toList none).map String.mk

/-- The timestamp the code stores for a child entry.
Source: `if ("winLastWriteDate" in childEntry) childLastModified =
childEntry.winLastWriteDate; else childLastModified =
await OS.File.stat(childEntry.path).lastModificationDate;`
In the `else` branch the member access binds before `await`: the field
`lastModificationDate` is read from the pending Promise object, which gives
`undefined`, and awaiting `undefined` is `undefined`. So the stat result is
never consulted and the branch yields `none`. -/
def childLastModifiedJS (e : FSNode) : Option Int :=
  match e.winDate with
  | some w => some w
  | none => none

/-- Is a built child node pushed onto `children`? Source: `if
(childNode.isDirectory || childNode.ext === "gltf" || childNode.ext ===
"glb") children.push(childNode);`. -/
def isExpandableChild : Node → Bool
  | .file _ ext _ _ => ext == some "gltf" || ext == some "glb"
  | .dir _ _ _ _ _ => true

mutual
/-- Embedding of `buildProjectNode(filePath, name, ext, isDirectory, uri, lastModified)`.
The `isDirectory` argument always agrees with the filesystem entry it was
derived from, so the embedding dispatches on the `FSNode` constructor. The
source pushes each child node onto `files` unconditionally and onto
`children` when `isExpandableChild` holds, in listing order; that single loop
is rendered as `buildChildren` followed by a `filter`. -/
def buildProjectNode (fs : FSNode) (filePath : String) (name : String)
    (ext : Option String) (uri : String) (lastModified : Option Int) : Node :=
  match fs with
  | .file _ _ _ => .file name ext uri lastModified
  | .dir _ _ _ entries =>
      let files := buildChildren entries filePath
      let children := files.filter isExpandableChild
      .dir name uri children files lastModified

/-- The loop `for (const childEntry of directoryEntries) ...`: each entry is
built with `childEntry.path = join(filePath, name)`, `childEntry.name`,
`getFileExtension(name)`, `childEntry.isDir`, `toFileURI(path)` and the
(buggy) `childLastModifiedJS` timestamp. `getDirectoryEntries` is from
`./utils` (not in the sources); modelled from the spec as returning the
directory's entries in listing order. -/
def buildChildren (entries : List FSNode) (dirPath : String) : List Node :=
  match entries with
  | [] => []
  | e :: rest =>
      let childPath := dirPath ++ "/" ++ e.name
      buildProjectNode e childPath e.name (getFileExtension e.name)
        (pathToUri childPath) (childLastModifiedJS e) :: buildChildren rest dirPath
end

/-- JS `Map.get`, on the insertion-ordered association-list model. -/
def mapGet {α : Type} (m : List (String × α)) (k : String) : Option α :=
  match m with
  | [] => none
  | (k', v) :: rest => if k' = k then some v else mapGet rest k

/-- JS `Map.set`: updates an existing key in place, appends a new key. -/
def mapSet {α : Type} (m : List (String × α)) (k : String) (v : α) :
    List (String × α) :=
  match m with
  | [] => [(k, v)]
  | (k', v') :: rest => if k' = k then (k, v) :: rest else (k', v') :: mapSet rest k v

/-- JS `Map.delete`. -/
def mapDelete {α : Type} (m : List (String × α)) (k : String) : List (String × α) :=
  match m with
  | [] => []
  | (k', v') :: rest => if k' = k then rest else (k', v') :: mapDelete rest k

/-- The mutable state of one `Project` instance (constructor fields). `uri`,
`path`, `name` are set in the constructor; `icon`/`iconPath` play no role in
the watcher and are omitted. `listeners` is the eventemitter3 listener list
(event name, handler), in registration order. -/
structure ProjectState where
  path : String
  name : String
  uri : String
  fileHierarchy : Option Node
  checkHierarchyTimeout : Option Nat
  nextTimeoutId : Nat
  listeners : List (String × Handler)
  fileWatchHandlerCount : Int
  fileWatchHandlers : List (String × List Handler)
  prevWatchedFileModified : List (String × Int)

/-- The state right after `new Project(name, uri, icon)`. -/
def initProject (name uri : String) : ProjectState :=
  { path := pathFromUri uri
    name := name
    uri := uri
    fileHierarchy := none
    checkHierarchyTimeout := none
    nextTimeoutId := 0
    listeners := []
    fileWatchHandlerCount := 0
    fileWatchHandlers := []
    prevWatchedFileModified := [] }

/-- Embedding of `this.listenerCount(event)` from the `EventEmitter` base. -/
def listenerCount (st : ProjectState) (event : String) : Nat :=
  (st.listeners.filter (fun p => p.1 == event)).length

/-- Overridden `addListener(event, callback)`: `super.addListener` appends the
pair, then, for `"hierarchychanged"` with `_checkHierarchyTimeout === null`,
arms the poll timer (`setTimeout(this._checkHierarchy, 1000)`; the delay value
is irrelevant to the claims, only the timer identity is kept). -/
def addListenerP (st : ProjectState) (event : String) (h : Handler) : ProjectState :=
  let st1 := { st with listeners := st.listeners ++ [(event, h)] }
  if event = "hierarchychanged" ∧ st1.checkHierarchyTimeout = none then
    { st1 with checkHierarchyTimeout := some st1.nextTimeoutId
               nextTimeoutId := st1.nextTimeoutId + 1 }
  else st1

/-- Overridden `removeListener(event, callback)`: `super.removeListener`
drops every listener of that event with that function identity (eventemitter3
removes all matches), then, for `"hierarchychanged"` with no listener left,
`clearTimeout` and `_checkHierarchyTimeout = null`. -/
def removeListenerP (st : ProjectState) (event : String) (h : Handler) : ProjectState :=
  let st1 := { st with
    listeners := st.listeners.filter (fun p => !(p.1 == event && p.2 == h)) }
  if event = "hierarchychanged" ∧ listenerCount st1 "hierarchychanged" = 0 then
    { st1 with checkHierarchyTimeout := none }
  else st1

/-- The root build of `getFileHierarchy`: `const { lastModificationDate } =
await OS.File.stat(this.path)` (correctly awaited here), then
`buildProjectNode(this.path, this.name, undefined, true, this.uri,
lastModificationDate)`. `fs` is the current filesystem tree at `this.path`. -/
def buildRoot (st : ProjectState) (fs : FSNode) : Node :=
  buildProjectNode fs st.path st.name none st.uri (some fs.mtime)

/-- Embedding of `getFileHierarchy(force)`: returns the cached `_fileHierarchy` when present
and `force` is falsy, otherwise rebuilds and stores the new snapshot. -/
def getFileHierarchy (st : ProjectState) (fs : FSNode) (force : Bool) :
    ProjectState × Node :=
  match st.fileHierarchy, force with
  | some h, false => (st, h)
  | _, _ =>
      let tree := buildRoot st fs
      ({ st with fileHierarchy := some tree }, tree)

/-- The JS values that reach the `deepEqual` call in `_checkHierarchy`:
`this._fileHierarchy` is `null` or a tree object; the un-awaited
`this.getFileHierarchy(true)` is a pending `Promise`. -/
inductive JSVal where
  | nullV
  | tree (n : Node)
  | promiseV (id : Nat)

/-- Behaviour of `fast-deep-equal` on those values: `null` only equals itself (strict
equality short-circuit); two trees compare structurally; a tree or `null`
never equals a `Promise` (different constructors / null check); two pending
`Promise`s have equal constructors and no own enumerable keys, hence compare
equal. -/
def fastDeepEqual : JSVal → JSVal → Bool
  | .nullV, .nullV => true
  | .tree a, .tree b => Node.beq a b
  | .promiseV _, .promiseV _ => true
  | _, _ => false

def optTreeVal : Option Node → JSVal
  | none => .nullV
  | some t => .tree t

/-- An emission of the `"hierarchychanged"` event, with its payload
(`this._fileHierarchy` at `emit` time). -/
inductive Emit where
  | hierarchychanged (payload : Option Node)

/-- Embedding of `_checkHierarchy` (a poll tick). Source:
`const oldHierarchy = this._fileHierarchy;`
`const newHierarchy = this.getFileHierarchy(true);`  — NO `await`: the value
bound is the pending Promise, and `this._fileHierarchy` is not yet replaced
when the comparison and the `emit` run;
`if (!deepEqual(oldHierarchy, newHierarchy)) this.emit("hierarchychanged",
this._fileHierarchy);`
`this._checkHierarchyTimeout = setTimeout(this._checkHierarchy, 5000);`
Afterwards the un-awaited rebuild resolves and stores the new snapshot.
The returned list holds the emissions of this tick. -/
def checkHierarchy (st : ProjectState) (fs : FSNode) : ProjectState × List Emit :=
  let oldHierarchy := optTreeVal st.fileHierarchy
  let newHierarchy := JSVal.promiseV st.nextTimeoutId
  let emits :=
    if fastDeepEqual oldHierarchy newHierarchy then []
    else [Emit.hierarchychanged st.fileHierarchy]
  let st1 := { st with checkHierarchyTimeout := some st.nextTimeoutId
                       nextTimeoutId := st.nextTimeoutId + 1 }
  let st2 := { st1 with fileHierarchy := some (buildRoot st1 fs) }
  (st2, emits)

/-- Error kind `AccessError`: rejection of `OS.File.stat` on a missing/unreadable path. -/
inductive AccessError where
  | accessError

/-- Tail of `watchFile` common to both branches: `if
(this._fileWatchHandlerCount === 0) this.addListener("hierarchychanged",
this._onWatchedFileChanged); this._fileWatchHandlerCount++;`. -/
def watchFileTail (st : ProjectState) : ProjectState :=
  let st1 :=
    if st.fileWatchHandlerCount = 0 then
      addListenerP st "hierarchychanged" Handler.onWatchedFileChanged
    else st
  { st1 with fileWatchHandlerCount := st1.fileWatchHandlerCount + 1 }

/-- Embedding of `watchFile(uri, callback)`. `statFn` models `OS.File.stat` on the current
filesystem (`none` = rejection). On a fresh uri the stat is awaited before
anything is stored, so a rejection propagates to the caller with no state
change. -/
def watchFile (st : ProjectState) (statFn : String → Option Int) (uri : String)
    (cb : Handler) : Except AccessError ProjectState :=
  match mapGet st.fileWatchHandlers uri with
  | some l =>
      let st1 := { st with fileWatchHandlers := mapSet st.fileWatchHandlers uri (l ++ [cb]) }
      .ok (watchFileTail st1)
  | none =>
      match statFn (pathFromUri uri) with
      | none => .error .accessError
      | some lastModificationDate =>
          let st1 := { st with
            prevWatchedFileModified :=
              mapSet st.prevWatchedFileModified uri lastModificationDate
            fileWatchHandlers := mapSet st.fileWatchHandlers uri [cb] }
          .ok (watchFileTail st1)

/-- Embedding of `unwatchFile(uri, callback)`. With a one-element callback list the whole
registration is deleted (the passed callback's identity is not checked);
otherwise `indexOf`/`splice` removes the first occurrence of the callback if
present. Finally, with `_fileWatchHandlerCount === 0`, the instance removes
its own `_onWatchedFileChanged` listener. -/
def unwatchFile (st : ProjectState) (uri : String) (cb : Handler) : ProjectState :=
  let st1 :=
    match mapGet st.fileWatchHandlers uri with
    | some l =>
        if l.length = 1 then
          { st with fileWatchHandlers := mapDelete st.fileWatchHandlers uri
                    fileWatchHandlerCount := st.fileWatchHandlerCount - 1 }
        else
          if cb ∈ l then
            { st with fileWatchHandlers := mapSet st.fileWatchHandlers uri (l.erase cb)
                      fileWatchHandlerCount := st.fileWatchHandlerCount - 1 }
          else st
    | none => st
  if st1.fileWatchHandlerCount = 0 then
    removeListenerP st1 "hierarchychanged" Handler.onWatchedFileChanged
  else st1

/-- Signal passed to a file-watch callback. -/
inductive Signal where
  | changed
  | removed
deriving DecidableEq, Repr

/-- One invocation `callback(signal, fileUri)`. -/
structure Call where
  handler : Handler
  signal : Signal
  fileUri : String
deriving DecidableEq, Repr

/-- The loop of `_onWatchedFileChanged` over `this._fileWatchHandlers`, in map
(insertion) order, threading `_prevWatchedFileModified`. Stat success with a
timestamp differing from the stored baseline updates the baseline and calls
every callback with `"changed"`; stat rejection calls every callback with
`"removed"` (registration and baseline left as they are). If the baseline
were missing, `prevLastModificationDate.getTime()` would throw a `TypeError`,
rejecting the async handler and skipping the remaining entries (this case is
unreachable from `watchFile`, which always stores a baseline first). -/
def processWatched (statFn : String → Option Int)
    (handlers : List (String × List Handler)) (prev : List (String × Int)) :
    List (String × Int) × List Call :=
  match handlers with
  | [] => (prev, [])
  | (fileUri, callbacks) :: rest =>
      match statFn (pathFromUri fileUri) with
      | some lastModificationDate =>
          match mapGet prev fileUri with
          | some prevLastModificationDate =>
              if lastModificationDate ≠ prevLastModificationDate then
                let prev1 := mapSet prev fileUri lastModificationDate
                let r := processWatched statFn rest prev1
                (r.1, callbacks.map (fun cb => ⟨cb, .changed, fileUri⟩) ++ r.2)
              else processWatched statFn rest prev
          | none => (prev, [])
      | none =>
          let r := processWatched statFn rest prev
          (r.1, callbacks.map (fun cb => ⟨cb, .removed, fileUri⟩) ++ r.2)

/-- Embedding of `_onWatchedFileChanged`, the registry's `hierarchychanged` handler. -/
def onWatchedFileChanged (st : ProjectState) (statFn : String → Option Int) :
    ProjectState × List Call :=
  let r := processWatched statFn st.fileWatchHandlers st.prevWatchedFileModified
  ({ st with prevWatchedFileModified := r.1 }, r.2)

/-- Embedding of `close()`. `this.watcher` is never assigned anywhere in the class, so the
`if (this.watcher) this.watcher.close()` guard is always false; all that runs
is `this.removeListener("hierarchychanged", this._onWatchedFileChanged)`. -/
def close (st : ProjectState) : ProjectState :=
  removeListenerP st "hierarchychanged" Handler.onWatchedFileChanged

/-- One full poll tick as observed by file watchers: `_checkHierarchy` runs,
and each `hierarchychanged` emission invokes the subscribed listeners in
order; the registry's `_onWatchedFileChanged` is the only listener whose
behaviour is modelled (external subscribers just receive the payload). -/
def pollTick (st : ProjectState) (fs : FSNode) (statFn : String → Option Int) :
    ProjectState × List Call :=
  let r := checkHierarchy st fs
  if r.2.isEmpty then (r.1, [])
  else if ("hierarchychanged", Handler.onWatchedFileChanged) ∈ r.1.listeners then
    onWatchedFileChanged r.1 statFn
  else (r.1, [])

/-! ## Helper lemmas -/

theorem mapGet_mapSet_self {α : Type} (m : List (String × α)) (k : String) (v : α) :
    mapGet (mapSet m k v) k = some v := by
  induction m with
  | nil => simp [mapGet, mapSet]
  | cons p rest ih =>
      obtain ⟨k', v'⟩ := p
      by_cases h : k' = k <;> simp [mapGet, mapSet, h, ih]

theorem mapGet_eq_none_of_not_mem {α : Type} (m : List (String × α)) (k : String)
    (h : k ∉ m.map Prod.fst) : mapGet m k = none := by
  induction m with
  | nil => rfl
  | cons p rest ih =>
      obtain ⟨k', v'⟩ := p
      simp only [List.map_cons, List.mem_cons] at h
      push_neg at h
      simp [mapGet, Ne.symm h.1, ih h.2]

theorem mapGet_mapDelete_self {α : Type} (m : List (String × α)) (k : String)
    (hnd : (m.map Prod.fst).Nodup) : mapGet (mapDelete m k) k = none := by
  induction m with
  | nil => rfl
  | cons p rest ih =>
      obtain ⟨k', v'⟩ := p
      simp only [List.map_cons, List.nodup_cons] at hnd
      by_cases h : k' = k
      · subst h
        simpa [mapDelete] using mapGet_eq_none_of_not_mem rest k' hnd.1
      · simp [mapDelete, mapGet, h, ih hnd.2]

theorem watchFileTail_fileWatchHandlers (s : ProjectState) :
    (watchFileTail s).fileWatchHandlers = s.fileWatchHandlers := by
  unfold watchFileTail addListenerP
  dsimp only
  split <;> (try split) <;> rfl

theorem watchFileTail_prevWatchedFileModified (s : ProjectState) :
    (watchFileTail s).prevWatchedFileModified = s.prevWatchedFileModified := by
  unfold watchFileTail addListenerP
  dsimp only
  split <;> (try split) <;> rfl

/-! ## C1 — change detection on a poll tick -/

/-- C1: On every poll tick, `_checkHierarchy` emits a `hierarchychanged`
notification unconditionally — the un-awaited `getFileHierarchy(true)` call
makes `deepEqual` compare the stored snapshot (a tree or `null`) against a
pending Promise, which is never deep-equal — and the payload is the stale
`this._fileHierarchy` from before the rebuild, not the newly built snapshot.
In particular, on a tick where the rebuilt tree is deep-equal to the previous
snapshot, a notification is still emitted, contradicting the claim. -/
theorem checkHierarchy_always_emits (st : ProjectState) (fs : FSNode) :
    (checkHierarchy st fs).2 = [Emit.hierarchychanged st.fileHierarchy] := by
  cases h : st.fileHierarchy <;>
    simp [checkHierarchy, h, optTreeVal, fastDeepEqual]

/-! ## C5 — cached snapshot / idempotence of `getFileHierarchy` -/

/-- C5: After any `getFileHierarchy(fs, false)` call, the state holds the
returned tree as its snapshot, and a second `getFileHierarchy(fs, false)`
call returns exactly the cached snapshot with the state unchanged (hence the
two results are structurally equal); in particular, with `force` false and an
existing snapshot, the stored snapshot is returned unchanged. -/
theorem getFileHierarchy_idempotent (st : ProjectState) (fs : FSNode) :
    (getFileHierarchy st fs false).1.fileHierarchy =
      some (getFileHierarchy st fs false).2 ∧
    getFileHierarchy (getFileHierarchy st fs false).1 fs false =
      ((getFileHierarchy st fs false).1, (getFileHierarchy st fs false).2) := by
  cases hh : st.fileHierarchy <;> simp [getFileHierarchy, hh]

/-! ## C10 — re-registering a watched uri -/

/-- C10: When `uri` already has an active registration, `watchFile` appends
the callback to the existing registration, leaves the stored baselines
untouched, succeeds (never `AccessError`), and its result does not depend on
the filesystem stat function at all (no stat is performed). -/
theorem watchFile_existing_registration (st : ProjectState)
    (statFn statFn2 : String → Option Int) (uri : String) (cb : Handler)
    (l : List Handler) (hl : mapGet st.fileWatchHandlers uri = some l) :
    (watchFile st statFn uri cb).toOption.map
        (fun s => mapGet s.fileWatchHandlers uri) = some (some (l ++ [cb])) ∧
    (watchFile st statFn uri cb).toOption.map
        (fun s => s.prevWatchedFileModified) = some st.prevWatchedFileModified ∧
    watchFile st statFn uri cb = watchFile st statFn2 uri cb := by
  simp [watchFile, hl, Except.toOption, watchFileTail_fileWatchHandlers,
    watchFileTail_prevWatchedFileModified, mapGet_mapSet_self]

/-- Witness for C10 at a concrete state: one registration for
`file:///p/a.txt` holding `user 1`; the stat function rejects everything
(the file no longer exists), yet re-registration succeeds. -/
def stC10 : ProjectState :=
  { path := "/p", name := "p", uri := "file:///p"
    fileHierarchy := none
    checkHierarchyTimeout := some 0
    nextTimeoutId := 1
    listeners := [("hierarchychanged", Handler.onWatchedFileChanged)]
    fileWatchHandlerCount := 1
    fileWatchHandlers := [("file:///p/a.txt", [Handler.user 1])]
    prevWatchedFileModified := [("file:///p/a.txt", 5)] }

theorem watchFile_existing_registration_witness :
    (watchFile stC10 (fun _ => none) "file:///p/a.txt" (Handler.user 2)).toOption.map
        (fun s => mapGet s.fileWatchHandlers "file:///p/a.txt") =
      some (some [Handler.user 1, Handler.user 2]) ∧
    (watchFile stC10 (fun _ => none) "file:///p/a.txt" (Handler.user 2)).toOption.map
        (fun s => s.prevWatchedFileModified) = some stC10.prevWatchedFileModified ∧
    watchFile stC10 (fun _ => none) "file:///p/a.txt" (Handler.user 2) =
      watchFile stC10 (fun _ => some 99) "file:///p/a.txt" (Handler.user 2) :=
  watchFile_existing_registration stC10 (fun _ => none) (fun _ => some 99)
    "file:///p/a.txt" (Handler.user 2) [Handler.user 1] rfl

/-! ## C7 — first registration for a uri -/

/-- C7: On the first `watchFile` registration for a uri (no existing
registration), a stat rejection propagates as `AccessError` to the caller;
a successful stat captures the file's current modification timestamp as the
uri's baseline and stores the single-callback registration; and when this is
the registry's first active watch overall (`_fileWatchHandlerCount === 0`),
the instance subscribes `_onWatchedFileChanged` to `hierarchychanged`. -/
theorem watchFile_first_registration (st : ProjectState)
    (statF statS : String → Option Int) (uri : String) (cb : Handler) (t : Int)
    (hfresh : mapGet st.fileWatchHandlers uri = none)
    (hF : statF (pathFromUri uri) = none)
    (hS : statS (pathFromUri uri) = some t) :
    watchFile st statF uri cb = .error .accessError ∧
    (watchFile st statS uri cb).toOption.map
        (fun s => mapGet s.prevWatchedFileModified uri) = some (some t) ∧
    (watchFile st statS uri cb).toOption.map
        (fun s => mapGet s.fileWatchHandlers uri) = some (some [cb]) ∧
    (st.fileWatchHandlerCount = 0 →
      (watchFile st statS uri cb).toOption.map
          (fun s => ("hierarchychanged", Handler.onWatchedFileChanged) ∈ s.listeners) =
        some True) := by
  refine ⟨by simp [watchFile, hfresh, hF], ?_, ?_, ?_⟩
  · simp [watchFile, hfresh, hS, Except.toOption,
      watchFileTail_prevWatchedFileModified, mapGet_mapSet_self]
  · simp [watchFile, hfresh, hS, Except.toOption,
      watchFileTail_fileWatchHandlers, mapGet_mapSet_self]
  · intro hz
    simp [watchFile, hfresh, hS, Except.toOption, watchFileTail, hz, addListenerP]
    split <;> simp

theorem watchFile_first_registration_witness :
    watchFile (initProject "p" "file:///p") (fun _ => none) "file:///p/a.txt"
        (Handler.user 1) = .error .accessError ∧
    (watchFile (initProject "p" "file:///p") (fun _ => some 5) "file:///p/a.txt"
          (Handler.user 1)).toOption.map
        (fun s => mapGet s.prevWatchedFileModified "file:///p/a.txt") =
      some (some 5) ∧
    (watchFile (initProject "p" "file:///p") (fun _ => some 5) "file:///p/a.txt"
          (Handler.user 1)).toOption.map
        (fun s => mapGet s.fileWatchHandlers "file:///p/a.txt") =
      some (some [Handler.user 1]) ∧
    (watchFile (initProject "p" "file:///p") (fun _ => some 5) "file:///p/a.txt"
          (Handler.user 1)).toOption.map
        (fun s =>
          ("hierarchychanged", Handler.onWatchedFileChanged) ∈ s.listeners) =
      some True := by
  obtain ⟨h1, h2, h3, h4⟩ :=
    watchFile_first_registration (initProject "p" "file:///p") (fun _ => none)
      (fun _ => some 5) "file:///p/a.txt" (Handler.user 1) 5 rfl rfl rfl
  exact ⟨h1, h2, h3, h4 rfl⟩

theorem removeListenerP_fileWatchHandlers (s : ProjectState) (e : String) (h : Handler) :
    (removeListenerP s e h).fileWatchHandlers = s.fileWatchHandlers := by
  unfold removeListenerP
  dsimp only
  split <;> rfl

theorem removeListenerP_fileWatchHandlerCount (s : ProjectState) (e : String) (h : Handler) :
    (removeListenerP s e h).fileWatchHandlerCount = s.fileWatchHandlerCount := by
  unfold removeListenerP
  dsimp only
  split <;> rfl

theorem removeListenerP_not_mem (s : ProjectState) (e : String) (h : Handler) :
    (e, h) ∉ (removeListenerP s e h).listeners := by
  have hf : (e, h) ∉ s.listeners.filter (fun p => !(p.1 == e && p.2 == h)) := by
    intro hm
    have := (List.mem_filter.mp hm).2
    simp at this
  unfold removeListenerP
  dsimp only
  split <;> exact hf

/-! ## C3 — child timestamps during tree construction -/

/-- Filesystem for C3: a directory with one entry whose listing carries no
`winLastWriteDate` (stat would report timestamp 7) and one whose listing
carries `winLastWriteDate` 3. -/
def fsC3 : FSNode :=
  .dir "r" 10 none [.file "a.txt" 7 none, .file "b.txt" 9 (some 3)]

/-- C3: evaluating the tree builder at `fsC3` shows the bug: the entry without
listing metadata gets `lastModified` `none` (the JS `undefined` produced by
`await OS.File.stat(path).lastModificationDate`, which reads the field off
the pending Promise), not the stat timestamp `7` the claim requires; only
the `winLastWriteDate` branch records a real timestamp. -/
theorem buildProjectNode_drops_stat_timestamp :
    buildProjectNode fsC3 "/r" "r" none "file:///r" (some 10) =
      Node.dir "r" "file:///r" []
        [Node.file "a.txt" (some "txt") "file:///r/a.txt" none,
         Node.file "b.txt" (some "txt") "file:///r/b.txt" (some 3)]
        (some 10) := by
  simp only [fsC3, buildProjectNode, buildChildren]
  rfl

/-! ## C2 — `unwatchFile` callback removal -/

/-- State for the C2 counterexample: a single watch on `file:///p/a.txt`
registered by `user 1`. -/
def stC2 : ProjectState :=
  { path := "/p", name := "p", uri := "file:///p"
    fileHierarchy := none
    checkHierarchyTimeout := some 0
    nextTimeoutId := 1
    listeners := [("hierarchychanged", Handler.onWatchedFileChanged)]
    fileWatchHandlerCount := 1
    fileWatchHandlers := [("file:///p/a.txt", [Handler.user 1])]
    prevWatchedFileModified := [("file:///p/a.txt", 5)] }

/-- C2 counterexample: calling `unwatchFile` with a callback (`user 2`) that
is NOT registered under the uri still drops the whole registration — the
one-element branch deletes without comparing identities — removing the
registered `user 1`, which the claim says must not happen. -/
theorem unwatchFile_wrong_callback_drops_registration :
    Handler.user 2 ≠ Handler.user 1 ∧
    mapGet stC2.fileWatchHandlers "file:///p/a.txt" = some [Handler.user 1] ∧
    mapGet (unwatchFile stC2 "file:///p/a.txt" (Handler.user 2)).fileWatchHandlers
      "file:///p/a.txt" = none := by
  refine ⟨by decide, rfl, rfl⟩

/-- C2, amended: `unwatchFile(uri, cb)` on a registered uri with exactly one
callback drops the registration regardless of which callback is passed; with
two or more callbacks it removes only the first occurrence of `cb` (leaving
the list unchanged when `cb` is not registered); and whenever the total
callback count afterwards is zero, the instance's own `_onWatchedFileChanged`
listener is unsubscribed from `hierarchychanged`. (`hnd` is the JS `Map`
well-formedness: registration keys are unique.) -/
theorem unwatchFile_amended (st : ProjectState) (uri : String) (cb : Handler)
    (l : List Handler) (hl : mapGet st.fileWatchHandlers uri = some l)
    (hnd : (st.fileWatchHandlers.map Prod.fst).Nodup) :
    (l.length = 1 →
      mapGet (unwatchFile st uri cb).fileWatchHandlers uri = none) ∧
    (l.length ≠ 1 →
      mapGet (unwatchFile st uri cb).fileWatchHandlers uri = some (l.erase cb)) ∧
    ((unwatchFile st uri cb).fileWatchHandlerCount = 0 →
      ("hierarchychanged", Handler.onWatchedFileChanged) ∉
        (unwatchFile st uri cb).listeners) := by
  have hfinal : ∀ s : ProjectState,
      (if s.fileWatchHandlerCount = 0 then
          removeListenerP s "hierarchychanged" Handler.onWatchedFileChanged
        else s).fileWatchHandlers = s.fileWatchHandlers := by
    intro s
    split
    · exact removeListenerP_fileWatchHandlers s _ _
    · rfl
  refine ⟨?_, ?_, ?_⟩
  · intro hlen
    unfold unwatchFile
    rw [hl]
    dsimp only
    rw [if_pos hlen, hfinal]
    exact mapGet_mapDelete_self st.fileWatchHandlers uri hnd
  · intro hlen
    unfold unwatchFile
    rw [hl]
    dsimp only
    rw [if_neg hlen]
    by_cases hmem : cb ∈ l
    · rw [if_pos hmem, hfinal]
      exact mapGet_mapSet_self st.fileWatchHandlers uri (l.erase cb)
    · rw [if_neg hmem, hfinal, List.erase_of_not_mem hmem]
      exact hl
  · intro hz
    unfold unwatchFile at hz ⊢
    set st1 :=
      (match mapGet st.fileWatchHandlers uri with
        | some l =>
          if l.length = 1 then
            { st with fileWatchHandlers := mapDelete st.fileWatchHandlers uri
                      fileWatchHandlerCount := st.fileWatchHandlerCount - 1 }
          else
            if cb ∈ l then
              { st with fileWatchHandlers := mapSet st.fileWatchHandlers uri (l.erase cb)
                        fileWatchHandlerCount := st.fileWatchHandlerCount - 1 }
            else st
        | none => st) with hst1
    by_cases hc : st1.fileWatchHandlerCount = 0
    · rw [if_pos hc] at hz ⊢
      exact removeListenerP_not_mem st1 "hierarchychanged" Handler.onWatchedFileChanged
    · rw [if_neg hc] at hz
      exact absurd hz hc

/-- State for the C2 amended-claim witness: two callbacks on one uri. -/
def stC2w : ProjectState :=
  { path := "/p", name := "p", uri := "file:///p"
    fileHierarchy := none
    checkHierarchyTimeout := some 0
    nextTimeoutId := 1
    listeners := [("hierarchychanged", Handler.onWatchedFileChanged)]
    fileWatchHandlerCount := 2
    fileWatchHandlers := [("file:///p/a.txt", [Handler.user 1, Handler.user 2])]
    prevWatchedFileModified := [("file:///p/a.txt", 5)] }

theorem unwatchFile_amended_witness :
    mapGet (unwatchFile stC2w "file:///p/a.txt" (Handler.user 1)).fileWatchHandlers
      "file:///p/a.txt" =
      some ([Handler.user 1, Handler.user 2].erase (Handler.user 1)) := by
  have h := unwatchFile_amended stC2w "file:///p/a.txt" (Handler.user 1)
    [Handler.user 1, Handler.user 2] rfl (by decide)
  exact h.2.1 (by decide)

/-! ## C6 — `children`/`files` invariant of built trees -/

def nodeIsDirectory : Node → Bool
  | .file _ _ _ _ => false
  | .dir _ _ _ _ _ => true

def nodeExt : Node → Option String
  | .file _ e _ _ => e
  | .dir _ _ _ _ _ => none

/-- The invariant claimed for every directory node of a built tree: `children`
is a subset of `files`, every `children` entry is a directory or has
extension `gltf`/`glb`, and the invariant holds recursively below. -/
inductive ChildrenOK : Node → Prop where
  | file (n : String) (e : Option String) (u : String) (l : Option Int) :
      ChildrenOK (.file n e u l)
  | dir (n u : String) (ch fls : List Node) (l : Option Int)
      (hsub : ∀ c ∈ ch, c ∈ fls)
      (hwl : ∀ c ∈ ch, nodeIsDirectory c = true ∨
        nodeExt c = some "gltf" ∨ nodeExt c = some "glb")
      (hrec : ∀ c ∈ fls, ChildrenOK c) :
      ChildrenOK (.dir n u ch fls l)

mutual
theorem childrenOK_buildProjectNode (fs : FSNode) (p n : String) (e : Option String)
    (u : String) (l : Option Int) : ChildrenOK (buildProjectNode fs p n e u l) :=
  match fs with
  | .file nm m w => by
      rw [buildProjectNode]
      exact ChildrenOK.file n e u l
  | .dir nm m w entries => by
      rw [buildProjectNode]
      refine ChildrenOK.dir n u _ _ l (fun c hc => List.mem_of_mem_filter hc) ?_ ?_
      · intro c hc
        have hex := (List.mem_filter.mp hc).2
        cases c with
        | file cn ce cu cl =>
            simp only [isExpandableChild, Bool.or_eq_true, beq_iff_eq] at hex
            rcases hex with h | h
            · exact Or.inr (Or.inl (by simp [nodeExt, h]))
            · exact Or.inr (Or.inr (by simp [nodeExt, h]))
        | dir _ _ _ _ _ => exact Or.inl rfl
      · intro c hc
        exact childrenOK_mem_buildChildren entries p c hc

theorem childrenOK_mem_buildChildren (entries : List FSNode) (p : String) :
    ∀ c ∈ buildChildren entries p, ChildrenOK c :=
  match entries with
  | [] => by
      intro c hc
      rw [buildChildren] at hc
      simp at hc
  | e :: rest => by
      intro c hc
      rw [buildChildren] at hc
      rcases List.mem_cons.mp hc with h | h
      · subst h
        exact childrenOK_buildProjectNode e _ _ _ _ _
      · exact childrenOK_mem_buildChildren rest p c h
end

/-- C6: Every node of a tree produced by `buildProjectNode` satisfies the
`children`/`files` invariant (`children ⊆ files`; each `children` entry is a
directory or a `gltf`/`glb` file), and `buildChildren` keeps one node per
directory entry, so `files` lists every direct child regardless of
extension. -/
theorem buildProjectNode_children_invariant :
    (∀ fs p n e u l, ChildrenOK (buildProjectNode fs p n e u l)) ∧
    (∀ entries p, (buildChildren entries p).length = entries.length) := by
  constructor
  · intro fs p n e u l
    exact childrenOK_buildProjectNode fs p n e u l
  · intro entries p
    induction entries with
    | nil => rw [buildChildren]; rfl
    | cons e rest ih => rw [buildChildren]; simp [ih]

/-! ## C8 — polling timer armed iff a `hierarchychanged` subscriber exists -/

theorem listenerCount_append (ls : List (String × Handler)) (e : String)
    (h : Handler) (ev : String) :
    ((ls ++ [(e, h)]).filter (fun p => p.1 == ev)).length =
      (ls.filter (fun p => p.1 == ev)).length + (if e = ev then 1 else 0) := by
  by_cases hev : e = ev <;> simp [List.filter_append, hev]

theorem listenerCount_filter_le (ls : List (String × Handler))
    (q : String × Handler → Bool) (ev : String) :
    ((ls.filter q).filter (fun p => p.1 == ev)).length ≤
      (ls.filter (fun p => p.1 == ev)).length :=
  List.Sublist.length_le (List.Sublist.filter _ (List.filter_sublist ls))

theorem filter_filter_of_imp {α : Type} (l : List α) (p q : α → Bool)
    (himp : ∀ x, p x = true → q x = true) :
    (l.filter q).filter p = l.filter p := by
  induction l with
  | nil => rfl
  | cons a rest ih =>
      simp only [List.filter_cons]
      by_cases hq : q a = true
      · by_cases hp : p a = true
        · simp [hq, hp, List.filter_cons, ih]
        · simp [hq, hp, List.filter_cons, ih]
      · have hp : ¬ p a = true := fun hpa => hq (himp a hpa)
        simp [hq, hp, ih]

theorem listenerCount_filter_other (ls : List (String × Handler)) (e : String)
    (h : Handler) (hne : e ≠ "hierarchychanged") :
    ((ls.filter (fun p => !(p.1 == e && p.2 == h))).filter
        (fun p => p.1 == "hierarchychanged")).length =
      (ls.filter (fun p => p.1 == "hierarchychanged")).length := by
  have himp : ∀ x : String × Handler, (x.1 == "hierarchychanged") = true →
      (!(x.1 == e && x.2 == h)) = true := by
    intro x hx
    have hx1 : x.1 = "hierarchychanged" := beq_iff_eq.mp hx
    rw [hx1]
    simp only [Bool.not_eq_true', Bool.and_eq_false_iff]
    left
    simp [Ne.symm hne]
  exact congrArg List.length (filter_filter_of_imp ls _ _ himp)

/-- The claimed invariant: the poll timer is armed iff at least one
`hierarchychanged` listener is registered. -/
def TimerInv (st : ProjectState) : Prop :=
  st.checkHierarchyTimeout.isSome = true ↔ 0 < listenerCount st "hierarchychanged"

/-- C8: The timer/subscriber invariant holds initially and is preserved by
`addListener`, `removeListener` and a poll tick (which only fires while the
timer is armed); moreover arming is idempotent: an `addListener` while the
timer is armed keeps the very same timer (no second timer is created). Hence
the timer is armed iff at least one `hierarchychanged` subscriber exists, it
is armed on the first subscriber and cancelled with the last one. -/
theorem pollTimer_inv :
    (∀ n u, TimerInv (initProject n u)) ∧
    (∀ st e h, TimerInv st → TimerInv (addListenerP st e h)) ∧
    (∀ st e h, TimerInv st → TimerInv (removeListenerP st e h)) ∧
    (∀ st fs, TimerInv st → st.checkHierarchyTimeout.isSome = true →
      TimerInv (checkHierarchy st fs).1) ∧
    (∀ st e h t, st.checkHierarchyTimeout = some t →
      (addListenerP st e h).checkHierarchyTimeout = some t) := by
  refine ⟨?_, ?_, ?_, ?_, ?_⟩
  · intro n u
    simp [TimerInv, initProject, listenerCount]
  · intro st e h hInv
    unfold addListenerP
    dsimp only
    split
    · rename_i hcond
      obtain ⟨he, -⟩ := hcond
      subst he
      simp only [TimerInv, listenerCount] at hInv ⊢
      rw [listenerCount_append]
      simp
    · rename_i hcond
      by_cases he : e = "hierarchychanged"
      · subst he
        have hne : st.checkHierarchyTimeout ≠ none := by
          intro hn
          exact hcond ⟨rfl, hn⟩
        have hs : st.checkHierarchyTimeout.isSome = true :=
          Option.isSome_iff_ne_none.mpr hne
        simp only [TimerInv, listenerCount] at hInv ⊢
        rw [listenerCount_append]
        simp [hs]
      · simp only [TimerInv, listenerCount] at hInv ⊢
        rw [listenerCount_append]
        simp only [he, if_false, Nat.add_zero]
        exact hInv
  · intro st e h hInv
    unfold removeListenerP
    dsimp only
    split
    · rename_i hcond
      obtain ⟨he, hz⟩ := hcond
      simp only [TimerInv, listenerCount] at hz ⊢
      try dsimp only at hz ⊢
      exact iff_of_false (by simp) (by omega)
    · rename_i hcond
      by_cases he : e = "hierarchychanged"
      · subst he
        have hz : ¬ (((st.listeners.filter
            (fun p => !(p.1 == "hierarchychanged" && p.2 == h))).filter
            (fun p => p.1 == "hierarchychanged")).length = 0) :=
          fun hh => hcond ⟨rfl, hh⟩
        simp only [TimerInv, listenerCount] at hInv ⊢
        try dsimp only
        have hpos := Nat.pos_of_ne_zero hz
        have hle := listenerCount_filter_le st.listeners
          (fun p => !(p.1 == "hierarchychanged" && p.2 == h)) "hierarchychanged"
        have hsome : st.checkHierarchyTimeout.isSome = true :=
          hInv.mpr (lt_of_lt_of_le hpos hle)
        exact iff_of_true hsome hpos
      · simp only [TimerInv, listenerCount] at hInv ⊢
        try dsimp only
        rw [listenerCount_filter_other st.listeners e h he]
        exact hInv
  · intro st fs hInv hsome
    simp only [TimerInv, listenerCount, checkHierarchy] at hInv ⊢
    try dsimp only
    simp only [Option.isSome_some, true_iff]
    exact hInv.mp hsome
  · intro st e h t ht
    unfold addListenerP
    dsimp only
    rw [if_neg]
    · exact ht
    · intro hcond
      have hnone : st.checkHierarchyTimeout = none := hcond.2
      rw [ht] at hnone
      exact Option.some_ne_none t hnone

/-- State for the C8 witness: timer already armed (id 5), one subscriber. -/
def stC8 : ProjectState :=
  { initProject "p" "file:///p" with
      checkHierarchyTimeout := some 5
      nextTimeoutId := 6
      listeners := [("hierarchychanged", Handler.user 1)] }

theorem pollTimer_inv_witness :
    TimerInv (addListenerP (initProject "p" "file:///p") "hierarchychanged"
      (Handler.user 1)) ∧
    (addListenerP stC8 "hierarchychanged" (Handler.user 2)).checkHierarchyTimeout =
      some 5 := by
  obtain ⟨hinit, hadd, -, -, hstart⟩ := pollTimer_inv
  exact ⟨hadd _ _ _ (hinit "p" "file:///p"), hstart _ _ _ 5 rfl⟩

/-! ## C9 — `close()` -/

/-- State for the C9 counterexample: one direct external `hierarchychanged`
subscriber (`user 1`), poll timer armed (id 0). -/
def stC9 : ProjectState :=
  { path := "/p", name := "p", uri := "file:///p"
    fileHierarchy := none
    checkHierarchyTimeout := some 0
    nextTimeoutId := 1
    listeners := [("hierarchychanged", Handler.user 1)]
    fileWatchHandlerCount := 0
    fileWatchHandlers := []
    prevWatchedFileModified := [] }

/-- C9 counterexample: with a direct `hierarchychanged` subscriber still
registered, `close()` neither cancels the poll timer nor releases that
subscription — it only removes the instance's own `_onWatchedFileChanged`
listener (the `this.watcher` guard is dead code) — so `close()` does not
release all timers and subscriptions. -/
theorem close_leaves_timer_armed :
    (close stC9).checkHierarchyTimeout = some 0 ∧
    ("hierarchychanged", Handler.user 1) ∈ (close stC9).listeners := by
  constructor
  · rfl
  · simp [close, removeListenerP, stC9, listenerCount]

theorem filter_filter_pointwise {α : Type} (l : List α) (p q r : α → Bool)
    (hpt : ∀ x, (p x && q x) = r x) : (l.filter q).filter p = l.filter r := by
  induction l with
  | nil => rfl
  | cons a rest ih =>
      simp only [List.filter_cons]
      by_cases hq : q a = true
      · by_cases hp : p a = true
        · have hr : r a = true := by rw [← hpt]; simp [hp, hq]
          simp [hq, hp, hr, List.filter_cons, ih]
        · have hr : ¬ r a = true := by rw [← hpt]; simp [hp]
          simp [hq, hp, hr, List.filter_cons, ih]
      · have hr : ¬ r a = true := by rw [← hpt]; simp [hq]
        simp [hq, hr, ih]

/-- Full characterization of `removeListener("hierarchychanged", h)`. -/
theorem removeListenerP_eq (s : ProjectState) (h : Handler) :
    removeListenerP s "hierarchychanged" h =
      { s with
          listeners := s.listeners.filter (fun p => !(p.1 == "hierarchychanged" && p.2 == h))
          checkHierarchyTimeout :=
            if ((s.listeners.filter (fun p => !(p.1 == "hierarchychanged" && p.2 == h))).filter (fun p => p.1 == "hierarchychanged")).length = 0 then none
            else s.checkHierarchyTimeout } := by
  unfold removeListenerP
  dsimp only
  by_cases hz : ((s.listeners.filter (fun p => !(p.1 == "hierarchychanged" && p.2 == h))).filter (fun p => p.1 == "hierarchychanged")).length = 0
  · have hcnd : "hierarchychanged" = "hierarchychanged" ∧ listenerCount { s with listeners := s.listeners.filter (fun p => !(p.1 == "hierarchychanged" && p.2 == h)) } "hierarchychanged" = 0 := ⟨rfl, hz⟩
    rw [if_pos hcnd, if_pos hz]
  · have hcnd : ¬ ("hierarchychanged" = "hierarchychanged" ∧ listenerCount { s with listeners := s.listeners.filter (fun p => !(p.1 == "hierarchychanged" && p.2 == h)) } "hierarchychanged" = 0) := fun hc => hz hc.2
    rw [if_neg hcnd, if_neg hz]

/-- C9, amended: `close()` removes the instance's own `_onWatchedFileChanged`
subscription; it is idempotent; and it cancels the poll timer exactly in the
case where no other `hierarchychanged` subscriber remains (in particular it
is safe, and a full teardown, when no external subscriber and no watch is
active). It does NOT cancel the timer while a direct external subscriber
remains (see the counterexample). -/
theorem close_amended (st : ProjectState) :
    ("hierarchychanged", Handler.onWatchedFileChanged) ∉ (close st).listeners ∧
    close (close st) = close st ∧
    (st.listeners.filter (fun p => p.1 == "hierarchychanged" && !(p.2 == Handler.onWatchedFileChanged)) = [] →
      (close st).checkHierarchyTimeout = none) := by
  have hff := filter_filter_of_imp st.listeners
    (fun p => !(p.1 == "hierarchychanged" && p.2 == Handler.onWatchedFileChanged))
    (fun p => !(p.1 == "hierarchychanged" && p.2 == Handler.onWatchedFileChanged))
    (fun x hx => hx)
  refine ⟨removeListenerP_not_mem st _ _, ?_, ?_⟩
  · unfold close
    rw [removeListenerP_eq st Handler.onWatchedFileChanged]
    rw [removeListenerP_eq _ Handler.onWatchedFileChanged]
    dsimp only
    rw [hff]
    by_cases hz : ((st.listeners.filter (fun p => !(p.1 == "hierarchychanged" && p.2 == Handler.onWatchedFileChanged))).filter (fun p => p.1 == "hierarchychanged")).length = 0
    · rw [if_pos hz, if_pos hz]
    · rw [if_neg hz, if_neg hz]
  · intro hother
    have hcnt : ((st.listeners.filter (fun p => !(p.1 == "hierarchychanged" && p.2 == Handler.onWatchedFileChanged))).filter (fun p => p.1 == "hierarchychanged")).length = 0 := by
      have heq := filter_filter_pointwise st.listeners
        (fun p => p.1 == "hierarchychanged")
        (fun p => !(p.1 == "hierarchychanged" && p.2 == Handler.onWatchedFileChanged))
        (fun p => p.1 == "hierarchychanged" && !(p.2 == Handler.onWatchedFileChanged))
        (by
          intro x
          by_cases h1 : (x.1 == "hierarchychanged") = true <;>
            by_cases h2 : (x.2 == Handler.onWatchedFileChanged) = true <;>
              simp [h1, h2])
      rw [heq, hother]
      rfl
    unfold close
    rw [removeListenerP_eq st Handler.onWatchedFileChanged]
    dsimp only
    rw [if_pos hcnt]

/-- State for the C9 amended-claim witness: the registry's internal listener
is the only subscriber and the timer is armed. -/
def stC9w : ProjectState :=
  { path := "/p", name := "p", uri := "file:///p"
    fileHierarchy := none
    checkHierarchyTimeout := some 0
    nextTimeoutId := 1
    listeners := [("hierarchychanged", Handler.onWatchedFileChanged)]
    fileWatchHandlerCount := 1
    fileWatchHandlers := [("file:///p/a.txt", [Handler.user 1])]
    prevWatchedFileModified := [("file:///p/a.txt", 5)] }

theorem close_amended_witness :
    ("hierarchychanged", Handler.onWatchedFileChanged) ∉ (close stC9w).listeners ∧
    close (close stC9w) = close stC9w ∧
    (close stC9w).checkHierarchyTimeout = none := by
  obtain ⟨h1, h2, h3⟩ := close_amended stC9w
  exact ⟨h1, h2, h3 (by rfl)⟩

/-! ## C4 — "removed" signal on file deletion -/

/-- Filesystem for C4: the project root after `b.txt` was deleted. -/
def fsC4 : FSNode := .dir "p" 10 none []

/-- State for C4: `file:///p/b.txt` watched by two callbacks, registry
subscribed, timer armed. -/
def stC4 : ProjectState :=
  { path := "/p", name := "p", uri := "file:///p"
    fileHierarchy := none
    checkHierarchyTimeout := some 0
    nextTimeoutId := 1
    listeners := [("hierarchychanged", Handler.onWatchedFileChanged)]
    fileWatchHandlerCount := 2
    fileWatchHandlers := [("file:///p/b.txt", [Handler.user 1, Handler.user 2])]
    prevWatchedFileModified := [("file:///p/b.txt", 5)] }

/-- C4: with the watched file deleted (every stat rejects), BOTH of two
consecutive poll ticks deliver the `"removed"` signal to both callbacks —
the signal is repeated on the second tick even though the removal was
already observed on the first and the uri was not re-registered. The claim's
"exactly once" fails because `_checkHierarchy` emits `hierarchychanged` on
every tick (the missing `await`, see C1), and `_onWatchedFileChanged`
re-fires `"removed"` on every emission while the registration stays. (The
re-stat failure is indeed swallowed by the `try`/`catch`, never thrown.) -/
theorem pollTick_repeats_removed_signal :
    (pollTick stC4 fsC4 (fun _ => none)).2 =
      [⟨Handler.user 1, Signal.removed, "file:///p/b.txt"⟩,
       ⟨Handler.user 2, Signal.removed, "file:///p/b.txt"⟩] ∧
    (pollTick (pollTick stC4 fsC4 (fun _ => none)).1 fsC4 (fun _ => none)).2 =
      [⟨Handler.user 1, Signal.removed, "file:///p/b.txt"⟩,
       ⟨Handler.user 2, Signal.removed, "file:///p/b.txt"⟩] := by
  constructor <;> rfl
